import Mathlib

/-!
# Inode operation handlers of a meta partition

A shallow embedding of `metanode/partition_op_inode.go`: the response assembly
function `replyInfo` and the ten partition operation handlers.

Code that the handlers call but that lives in other files of the package (the
record type, the status codes, the replicated log, the store lookup, the
encoders) is represented by explicit types and by the fields of `Deps`.
-/

set_option linter.dupNamespace false

namespace Metanode

/-! ## Data model -/

abbrev Byte := Fin 256

/-- A Go byte slice. A Go string is handled as its byte sequence as well, so
`[]byte(s)` is the sequence itself. -/
abbrev Bytes := List Byte

/-- A Go `error` value, observed through the text `Error()` returns. -/
structure GoError where
  Error : Bytes
deriving DecidableEq, Repr

/-- Result codes of package `proto` that the handlers name, and any other
one-byte code the apply step may hand back. -/
inductive Status where
  | OpOk
  | OpNotExistErr
  | OpInodeFullErr
  | OpAgain
  | OpErr
  | code (n : Nat)
deriving DecidableEq, Repr

/-- Opcodes the handlers submit to the replicated log. -/
inductive Op where
  | opFSMCreateInode
  | opFSMUnlinkInode
  | opFSMOpen
  | opFSMReleaseOpen
  | opFSMCreateLinkInode
  | opFSMEvictInode
  | opFSMSetAttr
deriving DecidableEq, Repr

/-- A `time.Time`, as seconds and nanoseconds relative to the Unix epoch. -/
structure Time where
  sec : Int
  nsec : Int
deriving DecidableEq, Repr

/-- The zero `time.Time` (January 1, year 1, 00:00:00 UTC). -/
def zeroTime : Time := ⟨-62135596800, 0⟩

/-- Go `time.Unix(sec, nsec)`: nanoseconds outside `[0, 1e9)` are carried into
the seconds. -/
def timeUnix (sec nsec : Int) : Time :=
  ⟨sec + nsec / 1000000000, nsec % 1000000000⟩

/-- The inode record. `readers` is the reader count of the embedded
`sync.RWMutex`; `Type_` is the field `Type`. -/
structure Inode where
  Inode : Nat
  Type_ : Nat
  Uid : Nat
  Gid : Nat
  Size : Nat
  Generation : Nat
  CreateTime : Int
  AccessTime : Int
  ModifyTime : Int
  LinkTarget : Bytes
  NLink : Nat
  Flag : Nat
  AuthID : Nat
  AuthTimeout : Int
  readers : Nat
deriving DecidableEq, Repr

/-- The attribute snapshot `proto.InodeInfo` sent to clients. -/
structure InodeInfo where
  Inode : Nat
  Mode : Nat
  Nlink : Nat
  Size : Nat
  Uid : Nat
  Gid : Nat
  Generation : Nat
  ModifyTime : Time
  CreateTime : Time
  AccessTime : Time
  Target : Bytes
deriving DecidableEq, Repr

/-- The value of `&proto.InodeInfo{}`: every field is its zero value. -/
def zeroInfo : InodeInfo :=
  { Inode := 0, Mode := 0, Nlink := 0, Size := 0, Uid := 0, Gid := 0,
    Generation := 0, ModifyTime := zeroTime, CreateTime := zeroTime,
    AccessTime := zeroTime, Target := [] }

/-- `ino.RLock()` with no writer holding the lock: one more reader. -/
def RLock (ino : Inode) : Inode :=
  { ino with readers := ino.readers + 1 }

/-- `ino.RUnlock()`: one reader fewer. -/
def RUnlock (ino : Inode) : Inode :=
  { ino with readers := ino.readers - 1 }

/-- Go `make([]byte, n)`: `n` zero bytes. -/
def make (n : Nat) : Bytes := List.replicate n 0

/-- Go `copy(dst, src)`: the first `min (len dst) (len src)` bytes of `dst`
are overwritten by those of `src`. -/
def copy (dst src : Bytes) : Bytes :=
  src.take dst.length ++ dst.drop src.length

/-- `replyInfo(info, ino)`. The result carries the returned boolean, the info
as left by the call and the record with the lock state the call leaves. The
constant `DeleteMarkFlag` is declared outside this file and is a parameter. -/
def replyInfo (DeleteMarkFlag : Nat) (info : InodeInfo) (ino : Inode) :
    Bool × InodeInfo × Inode :=
  let ino := RLock ino
  if ino.Flag &&& DeleteMarkFlag > 0 then
    (false, info, ino)
  else
    let info := { info with Inode := ino.Inode }
    let info := { info with Mode := ino.Type_ }
    let info := { info with Size := ino.Size }
    let info := { info with Nlink := ino.NLink }
    let info := { info with Uid := ino.Uid }
    let info := { info with Gid := ino.Gid }
    let info := { info with Generation := ino.Generation }
    let info :=
      if ino.LinkTarget.length > 0 then
        { info with Target := copy (make ino.LinkTarget.length) ino.LinkTarget }
      else info
    let info := { info with CreateTime := timeUnix ino.CreateTime 0 }
    let info := { info with AccessTime := timeUnix ino.AccessTime 0 }
    let info := { info with ModifyTime := timeUnix ino.ModifyTime 0 }
    let ino := RUnlock ino
    (true, info, ino)

/-! ## Requests, responses and collaborators -/

/-- The create request, with the fields the handler reads. -/
structure CreateInoReq where
  Mode : Nat
  Target : Bytes
deriving DecidableEq, Repr

structure UnlinkInoReq where
  Inode : Nat
deriving DecidableEq, Repr

/-- The open request: the inode and the access time stamped by the handler. -/
structure OpenReq where
  Inode : Nat
  ATime : Int
deriving DecidableEq, Repr

structure ReleaseReq where
  Inode : Nat
  AuthID : Nat
deriving DecidableEq, Repr

structure InodeGetReq where
  Inode : Nat
deriving DecidableEq, Repr

structure InodeGetReqBatch where
  Inodes : List Nat
deriving DecidableEq, Repr

structure LinkInodeReq where
  Inode : Nat
deriving DecidableEq, Repr

structure EvictInodeReq where
  Inode : Nat
deriving DecidableEq, Repr

/-- The `*ResponseInode` produced by the store lookup and by the apply step.
`Msg` is the record the pointer designates; the handlers read it only after
they have seen `Status == proto.OpOk`. -/
structure ResponseInode where
  Status : Status
  Msg : Inode
  AuthID : Nat
deriving DecidableEq, Repr

/-- The `interface{}` a committed proposal returns: its dynamic type is either
`uint8` or `*ResponseInode`. -/
inductive ApplyResult where
  | uint8 (s : Status)
  | ResponseInode (r : ResponseInode)
deriving DecidableEq, Repr

/-- The values the handlers pass to `json.Marshal`. -/
inductive JsonArg where
  | OpenReq (req : OpenReq)
  | CreateInoResp (Info : InodeInfo)
  | UnlinkInoResp (Info : InodeInfo)
  | OpenResponse (AuthID : Nat)
  | InodeGetResponse (Info : InodeInfo)
  | BatchInodeGetResponse (Infos : List InodeInfo)
  | LinkInodeResp (Info : InodeInfo)
  | AuthMap (authID : Nat) (authTime : Int)
deriving DecidableEq, Repr

/-- The reply side of a `*Packet`: the result code and the body. -/
structure Packet where
  ResultCode : Status
  Data : Bytes
deriving DecidableEq, Repr

/-- Modelled from the spec: `Packet.PacketErrorWithBody` is declared outside
this file; a handler's result is a `(status, payload)` pair, so the call
stores the code and the body in the packet. -/
def PacketErrorWithBody (p : Packet) (code : Status) (reply : Bytes) : Packet :=
  { p with ResultCode := code, Data := reply }

/-- Modelled from the spec: `Packet.PacketOkWithBody` is declared outside this
file; it stores status `Ok` and the body. -/
def PacketOkWithBody (p : Packet) (reply : Bytes) : Packet :=
  { p with ResultCode := Status.OpOk, Data := reply }

/-- Modelled from the spec: `Packet.PacketOkReply` is declared outside this
file; a plain acknowledgement is status `Ok` with no body. -/
def PacketOkReply (p : Packet) : Packet :=
  { p with ResultCode := Status.OpOk, Data := [] }

/-- Modelled from the spec: `Inode.GetAuth` is declared outside this file; it
returns the current lease token and its expiry. -/
def GetAuth (ino : Inode) : Nat × Int :=
  (ino.AuthID, ino.AuthTimeout)

/-- The functions and constants of the package that this file calls and does
not define. `α` is the state of the identifier allocator, `τ` the state of the
inode store. -/
structure Deps (α τ : Type) where
  /-- The flag bit tested by `replyInfo`. -/
  DeleteMarkFlag : Nat
  /-- `NewInode(ino, mode)`. -/
  NewInode : Nat → Nat → Inode
  /-- `mp.nextInodeID()`: the result and the allocator state it leaves. -/
  nextInodeID : α → Except GoError Nat × α
  /-- The replicated log: submitting a command either fails or commits it and
  returns the result of applying it; the partition state after the call. -/
  propose : Op → Bytes → α × τ → Except GoError ApplyResult × (α × τ)
  /-- `mp.getInode(ino)`: the store lookup keyed by `ino.Inode`. -/
  getInode : τ → Inode → ResponseInode
  /-- `ino.Marshal()`: the binary encoding of a record. -/
  Marshal : Inode → Except GoError Bytes
  /-- `json.Marshal(v)`. -/
  jsonMarshal : JsonArg → Except GoError Bytes

/-- The partition state the handlers act on: allocator, inode store, and the
sequence of commands submitted to the replicated log so far. -/
structure metaPartition (α τ : Type) where
  config : α
  inodeTree : τ
  proposed : List (Op × Bytes)

/-- What a handler leaves behind: the packet, the returned `err` (`none` for
`nil`) and the partition state. -/
structure Ret (α τ : Type) where
  p : Packet
  err : Option GoError
  mp : metaPartition α τ

/-- Modelled from the spec: `mp.Put(op, val)` is declared outside this file;
it is `propose(opcode, payload) -> (result, error)` on the replicated log. The
submitted command is appended to `proposed`. -/
def Put {α τ : Type} (d : Deps α τ) (mp : metaPartition α τ) (op : Op) (val : Bytes) :
    Except GoError ApplyResult × metaPartition α τ :=
  let r := d.propose op val (mp.config, mp.inodeTree)
  (r.1, { config := r.2.1, inodeTree := r.2.2, proposed := mp.proposed ++ [(op, val)] })

/-! ## The handlers

A handler that asserts the dynamic type of the apply result returns `none`
when the assertion fails (the Go code panics there). The lock state that
`replyInfo` leaves on a record is observed on `replyInfo` itself and is not
written back into the store state `τ`. -/

/-- `metaPartition.CreateInode`. -/
def CreateInode {α τ : Type} (d : Deps α τ) (req : CreateInoReq) (p : Packet)
    (mp : metaPartition α τ) : Option (Ret α τ) :=
  match d.nextInodeID mp.config with
  | (.error err, cfg) =>
    some ⟨PacketErrorWithBody p .OpInodeFullErr err.Error, some err, { mp with config := cfg }⟩
  | (.ok inoID, cfg) =>
    let mp := { mp with config := cfg }
    let ino := d.NewInode inoID req.Mode
    let ino := { ino with LinkTarget := req.Target }
    match d.Marshal ino with
    | .error err => some ⟨PacketErrorWithBody p .OpErr err.Error, some err, mp⟩
    | .ok val =>
      match Put d mp .opFSMCreateInode val with
      | (.error err, mp) => some ⟨PacketErrorWithBody p .OpAgain err.Error, some err, mp⟩
      | (.ok (.ResponseInode _), _) => none
      | (.ok (.uint8 resp), mp) =>
        if resp = .OpOk then
          let r := replyInfo d.DeleteMarkFlag zeroInfo ino
          if r.1 then
            match d.jsonMarshal (.CreateInoResp r.2.1) with
            | .error err => some ⟨PacketErrorWithBody p .OpErr err.Error, some err, mp⟩
            | .ok reply => some ⟨PacketErrorWithBody p .OpOk reply, none, mp⟩
          else some ⟨PacketErrorWithBody p .OpNotExistErr [], none, mp⟩
        else some ⟨PacketErrorWithBody p .OpNotExistErr [], none, mp⟩

/-- `metaPartition.UnlinkInode`. The boolean returned by `replyInfo` is not
inspected. -/
def UnlinkInode {α τ : Type} (d : Deps α τ) (req : UnlinkInoReq) (p : Packet)
    (mp : metaPartition α τ) : Option (Ret α τ) :=
  let ino := d.NewInode req.Inode 0
  match d.Marshal ino with
  | .error err => some ⟨PacketErrorWithBody p .OpErr [], some err, mp⟩
  | .ok val =>
    match Put d mp .opFSMUnlinkInode val with
    | (.error err, mp) => some ⟨PacketErrorWithBody p .OpAgain err.Error, some err, mp⟩
    | (.ok (.uint8 _), _) => none
    | (.ok (.ResponseInode msg), mp) =>
      let status := msg.Status
      if status = .OpOk then
        let r := replyInfo d.DeleteMarkFlag zeroInfo msg.Msg
        match d.jsonMarshal (.UnlinkInoResp r.2.1) with
        | .error err => some ⟨PacketErrorWithBody p .OpErr [], some err, mp⟩
        | .ok reply => some ⟨PacketErrorWithBody p status reply, none, mp⟩
      else some ⟨PacketErrorWithBody p status [], none, mp⟩

/-- `metaPartition.Open`. `now` is the value of the one
`Now.GetCurrentTime().Unix()` the handler evaluates. -/
def Open {α τ : Type} (d : Deps α τ) (now : Int) (req : OpenReq) (p : Packet)
    (mp : metaPartition α τ) : Option (Ret α τ) :=
  let req := { req with ATime := now }
  match d.jsonMarshal (.OpenReq req) with
  | .error err => some ⟨PacketErrorWithBody p .OpErr [], some err, mp⟩
  | .ok val =>
    match Put d mp .opFSMOpen val with
    | (.error err, mp) => some ⟨PacketErrorWithBody p .OpAgain err.Error, some err, mp⟩
    | (.ok (.uint8 _), _) => none
    | (.ok (.ResponseInode msg), mp) =>
      match d.jsonMarshal (.OpenResponse msg.AuthID) with
      | .error err => some ⟨PacketErrorWithBody p .OpErr [], some err, mp⟩
      | .ok reply => some ⟨PacketErrorWithBody p msg.Status reply, none, mp⟩

/-- `metaPartition.ReleaseOpen`. -/
def ReleaseOpen {α τ : Type} (d : Deps α τ) (req : ReleaseReq) (p : Packet)
    (mp : metaPartition α τ) : Option (Ret α τ) :=
  let ino := d.NewInode req.Inode 0
  let ino := { ino with AuthID := req.AuthID }
  match d.Marshal ino with
  | .error err => some ⟨PacketErrorWithBody p .OpErr err.Error, some err, mp⟩
  | .ok val =>
    match Put d mp .opFSMReleaseOpen val with
    | (.error err, mp) => some ⟨PacketErrorWithBody p .OpAgain err.Error, some err, mp⟩
    | (.ok (.ResponseInode _), _) => none
    | (.ok (.uint8 r), mp) => some ⟨PacketErrorWithBody p r [], none, mp⟩

/-- `metaPartition.InodeGet`. -/
def InodeGet {α τ : Type} (d : Deps α τ) (req : InodeGetReq) (p : Packet)
    (mp : metaPartition α τ) : Packet × Option GoError :=
  let ino := d.NewInode req.Inode 0
  let retMsg := d.getInode mp.inodeTree ino
  if retMsg.Status = .OpOk then
    let r := replyInfo d.DeleteMarkFlag zeroInfo retMsg.Msg
    if r.1 then
      match d.jsonMarshal (.InodeGetResponse r.2.1) with
      | .error err => (PacketErrorWithBody p .OpErr [], some err)
      | .ok reply => (PacketErrorWithBody p .OpOk reply, none)
    else (PacketErrorWithBody p .OpNotExistErr [], none)
  else (PacketErrorWithBody p .OpNotExistErr [], none)

/-- One iteration of the loop of `InodeGetBatch`: the key `ino` gets the next
id, the store is asked, and a live record appends its info to `Infos`. -/
def batchStep {α τ : Type} (d : Deps α τ) (mp : metaPartition α τ)
    (st : Inode × List InodeInfo) (inoId : Nat) : Inode × List InodeInfo :=
  let ino := { st.1 with Inode := inoId }
  let retMsg := d.getInode mp.inodeTree ino
  if retMsg.Status = .OpOk then
    let r := replyInfo d.DeleteMarkFlag zeroInfo retMsg.Msg
    if r.1 then (ino, st.2 ++ [r.2.1]) else (ino, st.2)
  else (ino, st.2)

/-- `metaPartition.InodeGetBatch`. -/
def InodeGetBatch {α τ : Type} (d : Deps α τ) (req : InodeGetReqBatch) (p : Packet)
    (mp : metaPartition α τ) : Packet × Option GoError :=
  let ino := d.NewInode 0 0
  let resp := (req.Inodes.foldl (batchStep d mp) (ino, [])).2
  match d.jsonMarshal (.BatchInodeGetResponse resp) with
  | .error err => (PacketErrorWithBody p .OpErr [], some err)
  | .ok data => (PacketOkWithBody p data, none)

/-- `metaPartition.InodeGetAuth`. -/
def InodeGetAuth {α τ : Type} (d : Deps α τ) (ino : Nat) (p : Packet)
    (mp : metaPartition α τ) : Packet × Option GoError :=
  let resp := d.getInode mp.inodeTree (d.NewInode ino 0)
  let status := resp.Status
  if status ≠ .OpOk then
    (PacketErrorWithBody p status [], none)
  else
    let auth := GetAuth resp.Msg
    match d.jsonMarshal (.AuthMap auth.1 auth.2) with
    | .error err => (PacketErrorWithBody p .OpErr [], some err)
    | .ok data => (PacketErrorWithBody p status data, none)

/-- `metaPartition.CreateLinkInode`. -/
def CreateLinkInode {α τ : Type} (d : Deps α τ) (req : LinkInodeReq) (p : Packet)
    (mp : metaPartition α τ) : Option (Ret α τ) :=
  let ino := d.NewInode req.Inode 0
  match d.Marshal ino with
  | .error err => some ⟨PacketErrorWithBody p .OpErr err.Error, some err, mp⟩
  | .ok val =>
    match Put d mp .opFSMCreateLinkInode val with
    | (.error err, mp) => some ⟨PacketErrorWithBody p .OpAgain err.Error, some err, mp⟩
    | (.ok (.uint8 _), _) => none
    | (.ok (.ResponseInode retMsg), mp) =>
      if retMsg.Status = .OpOk then
        let r := replyInfo d.DeleteMarkFlag zeroInfo retMsg.Msg
        if r.1 then
          match d.jsonMarshal (.LinkInodeResp r.2.1) with
          | .error err => some ⟨PacketErrorWithBody p .OpErr [], some err, mp⟩
          | .ok reply => some ⟨PacketErrorWithBody p .OpOk reply, none, mp⟩
        else some ⟨PacketErrorWithBody p .OpNotExistErr [], none, mp⟩
      else some ⟨PacketErrorWithBody p .OpNotExistErr [], none, mp⟩

/-- `metaPartition.EvictInode`. -/
def EvictInode {α τ : Type} (d : Deps α τ) (req : EvictInodeReq) (p : Packet)
    (mp : metaPartition α τ) : Option (Ret α τ) :=
  let ino := d.NewInode req.Inode 0
  match d.Marshal ino with
  | .error err => some ⟨PacketErrorWithBody p .OpErr err.Error, some err, mp⟩
  | .ok val =>
    match Put d mp .opFSMEvictInode val with
    | (.error err, mp) => some ⟨PacketErrorWithBody p .OpAgain err.Error, some err, mp⟩
    | (.ok (.uint8 _), _) => none
    | (.ok (.ResponseInode msg), mp) => some ⟨PacketErrorWithBody p msg.Status [], none, mp⟩

/-- `metaPartition.SetAttr`. -/
def SetAttr {α τ : Type} (d : Deps α τ) (reqData : Bytes) (p : Packet)
    (mp : metaPartition α τ) : Ret α τ :=
  match Put d mp .opFSMSetAttr reqData with
  | (.error err, mp) => ⟨PacketErrorWithBody p .OpAgain err.Error, some err, mp⟩
  | (.ok _, mp) => ⟨PacketOkReply p, none, mp⟩

/-! ## Specification-side definitions -/

/-- The snapshot of a record as the specification describes it: the info whose
fields are the record's fields, the target the record's link target and the
timestamps the record's epoch seconds. -/
def snapshot (ino : Inode) : InodeInfo :=
  { Inode := ino.Inode, Mode := ino.Type_, Nlink := ino.NLink, Size := ino.Size,
    Uid := ino.Uid, Gid := ino.Gid, Generation := ino.Generation,
    ModifyTime := ⟨ino.ModifyTime, 0⟩, CreateTime := ⟨ino.CreateTime, 0⟩,
    AccessTime := ⟨ino.AccessTime, 0⟩, Target := ino.LinkTarget }

/-- The store lookup `InodeGetBatch` performs for one requested id. -/
def batchLookup {α τ : Type} (d : Deps α τ) (mp : metaPartition α τ) (inoId : Nat) :
    ResponseInode :=
  d.getInode mp.inodeTree { d.NewInode 0 0 with Inode := inoId }

/-- The list the specification asks of a batch read: in request order, the
snapshot of every requested id whose lookup has status `Ok` and whose record is
not delete-marked; every other id contributes nothing. -/
def batchSpec {α τ : Type} (d : Deps α τ) (mp : metaPartition α τ) (ids : List Nat) :
    List InodeInfo :=
  ids.filterMap fun inoId =>
    if (batchLookup d mp inoId).Status = Status.OpOk ∧
        (batchLookup d mp inoId).Msg.Flag &&& d.DeleteMarkFlag = 0 then
      some (snapshot (batchLookup d mp inoId).Msg)
    else none

/-! ## A concrete instance of the collaborators

Used to evaluate the handlers on examples. The allocator hands out ids up to
an end mark, the store is a list of records searched by id, the replicated log
answers every proposal with a fixed outcome, and the encoders write a tag
followed by the low byte of each number. -/

def exByte (n : Nat) : Byte := Fin.ofNat n

def exInfoBytes (i : InodeInfo) : Bytes :=
  [exByte i.Inode, exByte i.Mode, exByte i.Nlink, exByte i.Size, exByte i.Uid,
   exByte i.Gid, exByte i.Generation, exByte i.CreateTime.sec.toNat] ++ i.Target

def exJson : JsonArg → Except GoError Bytes
  | .OpenReq req => .ok [1, exByte req.Inode, exByte req.ATime.toNat]
  | .CreateInoResp i => .ok (2 :: exInfoBytes i)
  | .UnlinkInoResp i => .ok (3 :: exInfoBytes i)
  | .OpenResponse a => .ok [4, exByte a]
  | .InodeGetResponse i => .ok (5 :: exInfoBytes i)
  | .BatchInodeGetResponse l => .ok (6 :: (l.map exInfoBytes).flatten)
  | .LinkInodeResp i => .ok (7 :: exInfoBytes i)
  | .AuthMap a t => .ok [8, exByte a, exByte t.toNat]

def exNewInode (ino mode : Nat) : Inode :=
  { Inode := ino, Type_ := mode, Uid := 0, Gid := 0, Size := 0, Generation := 1,
    CreateTime := 100, AccessTime := 100, ModifyTime := 100, LinkTarget := [],
    NLink := 1, Flag := 0, AuthID := 0, AuthTimeout := 0, readers := 0 }

/-- Modelled from the spec: the store's `get(id)` returns the record if it is
present, delete-marked or not; absence is reported as not-found. -/
def exGetInode (tree : List Inode) (ino : Inode) : ResponseInode :=
  match tree.find? (fun r => r.Inode == ino.Inode) with
  | some r => ⟨Status.OpOk, r, 0⟩
  | none => ⟨Status.OpNotExistErr, ino, 0⟩

/-- Modelled from the spec: the allocator's `next()` returns a fresh id or fails
once the partition's range is consumed. The state is the cursor and the end of
the range. -/
def exNextInodeID (cfg : Nat × Nat) : Except GoError Nat × (Nat × Nat) :=
  if cfg.1 ≥ cfg.2 then (.error ⟨[105, 100]⟩, cfg) else (.ok (cfg.1 + 1), (cfg.1 + 1, cfg.2))

def exDeps (outcome : Except GoError ApplyResult) : Deps (Nat × Nat) (List Inode) :=
  { DeleteMarkFlag := 1
    NewInode := exNewInode
    nextInodeID := exNextInodeID
    propose := fun _ _ st => (outcome, st)
    getInode := exGetInode
    Marshal := fun ino => .ok [exByte ino.Inode, exByte ino.AuthID]
    jsonMarshal := exJson }

/-- A live record with the given id. -/
def exLive (ino : Nat) : Inode :=
  { exNewInode ino 420 with Size := 9, AuthID := 42, AuthTimeout := 77 }

/-- A record with the given id that an unlink has brought to link count zero
and delete-marked. -/
def exMarked (ino : Nat) : Inode :=
  { exNewInode ino 420 with NLink := 0, Flag := 1, AuthID := 42, AuthTimeout := 77 }

def exPacket : Packet := ⟨Status.code 0, []⟩

/-- A partition holding live records 5 and 7 and a delete-marked record 8,
with the allocator at 8 of 100. -/
def exPartition : metaPartition (Nat × Nat) (List Inode) :=
  { config := (8, 100), inodeTree := [exLive 5, exLive 7, exMarked 8], proposed := [] }

/-- The same partition with the id range consumed. -/
def exFull : metaPartition (Nat × Nat) (List Inode) :=
  { exPartition with config := (100, 100) }

/-- The outcome of a log that cannot commit. -/
def exDown : Except GoError ApplyResult := .error ⟨[110, 111]⟩

/-! ## Auxiliary facts -/

theorem copy_make (l : Bytes) : copy (make l.length) l = l := by
  simp [copy, make]

theorem timeUnix_zero (s : Int) : timeUnix s 0 = ⟨s, 0⟩ := by
  simp [timeUnix]

theorem RUnlock_RLock (ino : Inode) : RUnlock (RLock ino) = ino := by
  cases ino; simp [RUnlock, RLock]

theorem replyInfo_marked (D : Nat) (info : InodeInfo) (ino : Inode)
    (h : ino.Flag &&& D ≠ 0) : replyInfo D info ino = (false, info, RLock ino) := by
  have h0 : 0 < ino.Flag &&& D := Nat.pos_of_ne_zero h
  simp [replyInfo, RLock, h0]

theorem replyInfo_live (D : Nat) (ino : Inode) (h : ino.Flag &&& D = 0) :
    replyInfo D zeroInfo ino = (true, snapshot ino, ino) := by
  have hu := RUnlock_RLock ino
  rcases hl : ino.LinkTarget with _ | ⟨b, t⟩
  · simp [replyInfo, RLock, h, hl, zeroInfo, snapshot, timeUnix_zero] at hu ⊢
    simpa [RLock] using hu
  · have hc := copy_make ino.LinkTarget
    rw [hl] at hc
    simp [replyInfo, RLock, h, hl, zeroInfo, snapshot, timeUnix_zero] at hu ⊢
    exact ⟨by simpa using hc, by simpa [RLock] using hu⟩

theorem batchStep_eq {α τ : Type} (d : Deps α τ) (mp : metaPartition α τ)
    (st : Inode × List InodeInfo) (inoId : Nat)
    (hk : ∀ i, { st.1 with Inode := i } = { d.NewInode 0 0 with Inode := i }) :
    batchStep d mp st inoId =
      ({ d.NewInode 0 0 with Inode := inoId }, st.2 ++ batchSpec d mp [inoId]) := by
  have hk1 := hk inoId
  by_cases hs : (batchLookup d mp inoId).Status = Status.OpOk
  · by_cases hf : (batchLookup d mp inoId).Msg.Flag &&& d.DeleteMarkFlag = 0
    · have hr := replyInfo_live d.DeleteMarkFlag _ hf
      simp only [batchLookup] at hs hf hr
      simp [batchStep, batchSpec, batchLookup, hk1, hs, hf, hr]
    · have hr := replyInfo_marked d.DeleteMarkFlag zeroInfo _ hf
      simp only [batchLookup] at hs hf hr
      simp [batchStep, batchSpec, batchLookup, hk1, hs, hf, hr]
  · simp only [batchLookup] at hs
    simp [batchStep, batchSpec, batchLookup, hk1, hs]

theorem batch_foldl {α τ : Type} (d : Deps α τ) (mp : metaPartition α τ) (ids : List Nat) :
    ∀ st : Inode × List InodeInfo,
      (∀ i, { st.1 with Inode := i } = { d.NewInode 0 0 with Inode := i }) →
      (ids.foldl (batchStep d mp) st).2 = st.2 ++ batchSpec d mp ids := by
  induction ids with
  | nil => intro st _; simp [batchSpec]
  | cons a t ih =>
    intro st hk
    rw [List.foldl_cons, batchStep_eq d mp st a hk, ih _ (fun i => rfl)]
    simp only [batchSpec, List.filterMap_cons, List.filterMap_nil]
    split <;> simp

/-- The reader count `replyInfo` leaves on a record, for every record and
flag constant: unchanged on the `true` path, one more on the `false` path. -/
theorem replyInfo_readers (D : Nat) (info : InodeInfo) (ino : Inode) :
    (replyInfo D info ino).2.2.readers =
      if ino.Flag &&& D = 0 then ino.readers else ino.readers + 1 := by
  by_cases hf : ino.Flag &&& D = 0
  · have h0 : ¬ (0 < ino.Flag &&& D) := by omega
    simp [replyInfo, RLock, RUnlock, hf, h0]
  · simp [replyInfo_marked D info ino hf, RLock, hf]

/-- The reply of `UnlinkInode` when the committed result has status `Ok` and a
delete-marked record: status `Ok` with the encoding of the zeroed info. -/
theorem UnlinkInode_marked {α τ : Type} (d : Deps α τ) (req : UnlinkInoReq) (p : Packet)
    (mp : metaPartition α τ) (val data : Bytes) (msg : ResponseInode) (st : α × τ)
    (hval : d.Marshal (d.NewInode req.Inode 0) = .ok val)
    (hput : d.propose .opFSMUnlinkInode val (mp.config, mp.inodeTree) =
      (.ok (.ResponseInode msg), st))
    (hs : msg.Status = Status.OpOk) (hf : msg.Msg.Flag &&& d.DeleteMarkFlag ≠ 0)
    (henc : d.jsonMarshal (.UnlinkInoResp zeroInfo) = .ok data) :
    UnlinkInode d req p mp = some ⟨PacketErrorWithBody p Status.OpOk data, none,
      ⟨st.1, st.2, mp.proposed ++ [(Op.opFSMUnlinkInode, val)]⟩⟩ := by
  have hr := replyInfo_marked d.DeleteMarkFlag zeroInfo _ hf
  simp [UnlinkInode, Put, hval, hput, hs, hr, henc]

/-- The reply of `UnlinkInode` when the committed result has status `Ok` and a
record that is not delete-marked: status `Ok` with the encoding of the
record's snapshot. -/
theorem UnlinkInode_live {α τ : Type} (d : Deps α τ) (req : UnlinkInoReq) (p : Packet)
    (mp : metaPartition α τ) (val data : Bytes) (msg : ResponseInode) (st : α × τ)
    (hval : d.Marshal (d.NewInode req.Inode 0) = .ok val)
    (hput : d.propose .opFSMUnlinkInode val (mp.config, mp.inodeTree) =
      (.ok (.ResponseInode msg), st))
    (hs : msg.Status = Status.OpOk) (hf : msg.Msg.Flag &&& d.DeleteMarkFlag = 0)
    (henc : d.jsonMarshal (.UnlinkInoResp (snapshot msg.Msg)) = .ok data) :
    UnlinkInode d req p mp = some ⟨PacketErrorWithBody p Status.OpOk data, none,
      ⟨st.1, st.2, mp.proposed ++ [(Op.opFSMUnlinkInode, val)]⟩⟩ := by
  have hr := replyInfo_live d.DeleteMarkFlag _ hf
  simp [UnlinkInode, Put, hval, hput, hs, hr, henc]

/-! ## The claims -/

/-- Claim C1. A batch read replies with the encoding of exactly the snapshots
of the requested ids whose lookup has status `Ok` and whose record is not
delete-marked, in request order with duplicates kept (`batchSpec`): whenever
the encoder yields `data` for that list the reply is `Ok` with body `data` and
no error is returned, whichever ids are missing or delete-marked. -/
theorem InodeGetBatch_snapshots {α τ : Type} (d : Deps α τ) (req : InodeGetReqBatch)
    (p : Packet) (mp : metaPartition α τ) (data : Bytes)
    (henc : d.jsonMarshal (.BatchInodeGetResponse (batchSpec d mp req.Inodes)) = .ok data) :
    InodeGetBatch d req p mp = (PacketOkWithBody p data, none) := by
  have hf := batch_foldl d mp req.Inodes (d.NewInode 0 0, []) (fun _ => rfl)
  simp only [List.nil_append] at hf
  simp only [InodeGetBatch, hf, henc]

/-- Witness for C1: ids `[5, 99, 7]` with 99 absent give `Ok` and the snapshots
of 5 and 7, in that order. -/
theorem InodeGetBatch_snapshots_witness :
    batchSpec (exDeps exDown) exPartition [5, 99, 7] = [snapshot (exLive 5), snapshot (exLive 7)] ∧
    InodeGetBatch (exDeps exDown) ⟨[5, 99, 7]⟩ exPacket exPartition =
      (PacketOkWithBody exPacket
        (6 :: (exInfoBytes (snapshot (exLive 5)) ++ exInfoBytes (snapshot (exLive 7)))), none) :=
  ⟨by decide, InodeGetBatch_snapshots (exDeps exDown) ⟨[5, 99, 7]⟩ exPacket exPartition _ rfl⟩

/-- Claim C2. `InodeGet` looks the id up in the store. When the lookup has
status `Ok` and the record is not delete-marked, the reply is `Ok` with the
encoding of the record's snapshot (for every body `data` the encoder yields for
it); in every other case, a missing id or a delete-marked record, the reply is
`NotExist` with an empty body; and a reply with status `Ok` occurs only in the
first case. -/
theorem InodeGet_live_iff {α τ : Type} (d : Deps α τ) (req : InodeGetReq) (p : Packet)
    (mp : metaPartition α τ) :
    (∀ data : Bytes,
      (d.getInode mp.inodeTree (d.NewInode req.Inode 0)).Status = Status.OpOk →
      (d.getInode mp.inodeTree (d.NewInode req.Inode 0)).Msg.Flag &&& d.DeleteMarkFlag = 0 →
      d.jsonMarshal (.InodeGetResponse
        (snapshot (d.getInode mp.inodeTree (d.NewInode req.Inode 0)).Msg)) = .ok data →
      InodeGet d req p mp = (PacketErrorWithBody p Status.OpOk data, none)) ∧
    (¬ ((d.getInode mp.inodeTree (d.NewInode req.Inode 0)).Status = Status.OpOk ∧
        (d.getInode mp.inodeTree (d.NewInode req.Inode 0)).Msg.Flag &&& d.DeleteMarkFlag = 0) →
      InodeGet d req p mp = (PacketErrorWithBody p Status.OpNotExistErr [], none)) ∧
    ((InodeGet d req p mp).1.ResultCode = Status.OpOk →
      (d.getInode mp.inodeTree (d.NewInode req.Inode 0)).Status = Status.OpOk ∧
      (d.getInode mp.inodeTree (d.NewInode req.Inode 0)).Msg.Flag &&& d.DeleteMarkFlag = 0) := by
  by_cases hs : (d.getInode mp.inodeTree (d.NewInode req.Inode 0)).Status = Status.OpOk
  · by_cases hf : (d.getInode mp.inodeTree (d.NewInode req.Inode 0)).Msg.Flag
        &&& d.DeleteMarkFlag = 0
    · have hr := replyInfo_live d.DeleteMarkFlag _ hf
      refine ⟨?_, ?_, ?_⟩
      · intro data _ _ henc
        simp [InodeGet, hs, hr, henc]
      · intro hn; exact absurd ⟨hs, hf⟩ hn
      · intro _; exact ⟨hs, hf⟩
    · have hr := replyInfo_marked d.DeleteMarkFlag zeroInfo _ hf
      refine ⟨?_, ?_, ?_⟩
      · intro data _ hf2; exact absurd hf2 hf
      · intro _; simp [InodeGet, hs, hr]
      · intro hok; simp [InodeGet, hs, hr, PacketErrorWithBody] at hok
  · refine ⟨?_, ?_, ?_⟩
    · intro data hs2; exact absurd hs2 hs
    · intro _; simp [InodeGet, hs]
    · intro hok; simp [InodeGet, hs, PacketErrorWithBody] at hok

/-- Witness for C2 on the example partition: live id 5 is returned, the
delete-marked id 8 and the absent id 99 are answered `NotExist`. -/
theorem InodeGet_live_iff_witness :
    InodeGet (exDeps exDown) ⟨5⟩ exPacket exPartition =
      (PacketErrorWithBody exPacket Status.OpOk (5 :: exInfoBytes (snapshot (exLive 5))), none) ∧
    InodeGet (exDeps exDown) ⟨8⟩ exPacket exPartition =
      (PacketErrorWithBody exPacket Status.OpNotExistErr [], none) ∧
    InodeGet (exDeps exDown) ⟨99⟩ exPacket exPartition =
      (PacketErrorWithBody exPacket Status.OpNotExistErr [], none) :=
  ⟨(InodeGet_live_iff (exDeps exDown) ⟨5⟩ exPacket exPartition).1 _ rfl (by decide) rfl,
   (InodeGet_live_iff (exDeps exDown) ⟨8⟩ exPacket exPartition).2.1 (by decide),
   (InodeGet_live_iff (exDeps exDown) ⟨99⟩ exPacket exPartition).2.1 (by decide)⟩

/-- Claim C3. When the identifier allocator fails with `err`, `CreateInode`
replies `OpInodeFullErr` with the text of `err` as body, returns `err`, submits
no command to the replicated log and leaves the inode store as it was. -/
theorem CreateInode_allocator_failure {α τ : Type} (d : Deps α τ) (req : CreateInoReq)
    (p : Packet) (mp : metaPartition α τ) (err : GoError) (cfg : α)
    (halloc : d.nextInodeID mp.config = (.error err, cfg)) :
    ∃ r : Ret α τ, CreateInode d req p mp = some r ∧
      r.p = PacketErrorWithBody p Status.OpInodeFullErr err.Error ∧
      r.err = some err ∧
      r.mp.proposed = mp.proposed ∧
      r.mp.inodeTree = mp.inodeTree := by
  refine ⟨⟨PacketErrorWithBody p Status.OpInodeFullErr err.Error, some err,
    { mp with config := cfg }⟩, ?_, rfl, rfl, rfl, rfl⟩
  simp only [CreateInode, halloc]

/-- Witness for C3: on the partition whose id range is consumed the create
request is answered `OpInodeFullErr` and nothing is proposed. -/
theorem CreateInode_allocator_failure_witness :
    ∃ r : Ret (Nat × Nat) (List Inode),
      CreateInode (exDeps exDown) ⟨420, []⟩ exPacket exFull = some r ∧
      r.p = PacketErrorWithBody exPacket Status.OpInodeFullErr [105, 100] ∧
      r.err = some ⟨[105, 100]⟩ ∧
      r.mp.proposed = exFull.proposed ∧
      r.mp.inodeTree = exFull.inodeTree :=
  CreateInode_allocator_failure (exDeps exDown) ⟨420, []⟩ exPacket exFull ⟨[105, 100]⟩
    (100, 100) rfl

/-- Claim C9, evaluated on the code. On a live record `replyInfo` leaves the
reader count as it found it, but on a delete-marked record it returns `false`
with the read lock still held: the reader count is one more than before the
call. -/
theorem replyInfo_reader_count :
    (replyInfo 1 zeroInfo (exLive 5)).1 = true ∧
    (replyInfo 1 zeroInfo (exLive 5)).2.2.readers = (exLive 5).readers ∧
    (replyInfo 1 zeroInfo (exMarked 8)).1 = false ∧
    (replyInfo 1 zeroInfo (exMarked 8)).2.2.readers = (exMarked 8).readers + 1 := by
  decide

/-- Claim C10. For every record and a freshly zeroed info, `replyInfo` returns
`true` exactly when the record's flag has no `DeleteMarkFlag` bit set; when it
returns `true` the info's fields are the record's, the target is the record's
link target and the timestamps are the record's epoch seconds; when it returns
`false` the info is left as it was passed in, whatever it held. -/
theorem replyInfo_fields (D : Nat) (ino : Inode) :
    ((replyInfo D zeroInfo ino).1 = true ↔ ino.Flag &&& D = 0) ∧
    ((replyInfo D zeroInfo ino).1 = true →
      (replyInfo D zeroInfo ino).2.1.Inode = ino.Inode ∧
      (replyInfo D zeroInfo ino).2.1.Mode = ino.Type_ ∧
      (replyInfo D zeroInfo ino).2.1.Size = ino.Size ∧
      (replyInfo D zeroInfo ino).2.1.Nlink = ino.NLink ∧
      (replyInfo D zeroInfo ino).2.1.Uid = ino.Uid ∧
      (replyInfo D zeroInfo ino).2.1.Gid = ino.Gid ∧
      (replyInfo D zeroInfo ino).2.1.Generation = ino.Generation ∧
      (replyInfo D zeroInfo ino).2.1.Target = ino.LinkTarget ∧
      (replyInfo D zeroInfo ino).2.1.CreateTime = ⟨ino.CreateTime, 0⟩ ∧
      (replyInfo D zeroInfo ino).2.1.AccessTime = ⟨ino.AccessTime, 0⟩ ∧
      (replyInfo D zeroInfo ino).2.1.ModifyTime = ⟨ino.ModifyTime, 0⟩) ∧
    (∀ info : InodeInfo, (replyInfo D info ino).1 = false → (replyInfo D info ino).2.1 = info) := by
  by_cases hf : ino.Flag &&& D = 0
  · have hr := replyInfo_live D ino hf
    refine ⟨?_, ?_, ?_⟩
    · simp [hr, hf]
    · intro _; simp [hr, snapshot]
    · intro info hfalse
      have h0 : ¬ (0 < ino.Flag &&& D) := by omega
      simp [replyInfo, RLock, h0] at hfalse
  · refine ⟨?_, ?_, ?_⟩
    · simp [replyInfo_marked D zeroInfo ino hf, hf]
    · intro ht; simp [replyInfo_marked D zeroInfo ino hf] at ht
    · intro info _; simp [replyInfo_marked D info ino hf]

/-- Witness for C10: a live symbolic link with a three-byte target is copied
field by field, a delete-marked record leaves the info zeroed. -/
theorem replyInfo_fields_witness :
    (replyInfo 1 zeroInfo { exLive 5 with LinkTarget := [47, 97, 98] }).1 = true ∧
    (replyInfo 1 zeroInfo { exLive 5 with LinkTarget := [47, 97, 98] }).2.1.Target = [47, 97, 98] ∧
    (replyInfo 1 zeroInfo (exMarked 8)).2.1 = zeroInfo :=
  ⟨(replyInfo_fields 1 { exLive 5 with LinkTarget := [47, 97, 98] }).1.2 (by decide),
   ((replyInfo_fields 1 { exLive 5 with LinkTarget := [47, 97, 98] }).2.1
      ((replyInfo_fields 1 { exLive 5 with LinkTarget := [47, 97, 98] }).1.2 (by decide))).2.2.2.2.2.2.2.1,
   (replyInfo_fields 1 (exMarked 8)).2.2 zeroInfo (by decide)⟩

/-- Claim C4, evaluated on the code. The apply step answers an unlink of
record 8 with status `Ok` and the record, now at link count zero and
delete-marked. `UnlinkInode` replies `Ok`, but the body encodes a zeroed info
(inode 0, link count 0, no timestamps), not the snapshot of the record. -/
theorem UnlinkInode_marked_body :
    (UnlinkInode (exDeps (.ok (.ResponseInode ⟨Status.OpOk, exMarked 8, 0⟩))) ⟨8⟩
        exPacket exPartition).map (fun r => r.p) =
      some (PacketErrorWithBody exPacket Status.OpOk (3 :: exInfoBytes zeroInfo)) ∧
    exJson (.UnlinkInoResp (snapshot (exMarked 8))) ≠ exJson (.UnlinkInoResp zeroInfo) ∧
    (snapshot (exMarked 8)).Inode = 8 ∧ zeroInfo.Inode = 0 := by
  refine ⟨rfl, ?_, rfl, rfl⟩
  intro h
  have h2 : (3 :: exInfoBytes (snapshot (exMarked 8)) : Bytes) = 3 :: exInfoBytes zeroInfo :=
    Except.ok.inj h
  revert h2
  decide

/-- Claim C5. When the proposal of `CreateLinkInode` commits with a
`ResponseInode` result: if its status is `Ok` and its record is not
delete-marked, the reply is `Ok` with the encoding of the record's snapshot;
in every other case (any other status, or a delete-marked record) the reply is
`NotExist` with an empty body; and a reply with status `Ok` occurs only in the
first case. -/
theorem CreateLinkInode_live_iff {α τ : Type} (d : Deps α τ) (req : LinkInodeReq)
    (p : Packet) (mp : metaPartition α τ) (val : Bytes) (retMsg : ResponseInode) (st : α × τ)
    (hval : d.Marshal (d.NewInode req.Inode 0) = .ok val)
    (hput : d.propose .opFSMCreateLinkInode val (mp.config, mp.inodeTree) =
      (.ok (.ResponseInode retMsg), st)) :
    (∀ data : Bytes, retMsg.Status = Status.OpOk →
      retMsg.Msg.Flag &&& d.DeleteMarkFlag = 0 →
      d.jsonMarshal (.LinkInodeResp (snapshot retMsg.Msg)) = .ok data →
      CreateLinkInode d req p mp = some ⟨PacketErrorWithBody p Status.OpOk data, none,
        ⟨st.1, st.2, mp.proposed ++ [(Op.opFSMCreateLinkInode, val)]⟩⟩) ∧
    (¬ (retMsg.Status = Status.OpOk ∧ retMsg.Msg.Flag &&& d.DeleteMarkFlag = 0) →
      CreateLinkInode d req p mp = some ⟨PacketErrorWithBody p Status.OpNotExistErr [], none,
        ⟨st.1, st.2, mp.proposed ++ [(Op.opFSMCreateLinkInode, val)]⟩⟩) ∧
    (∀ r : Ret α τ, CreateLinkInode d req p mp = some r → r.p.ResultCode = Status.OpOk →
      retMsg.Status = Status.OpOk ∧ retMsg.Msg.Flag &&& d.DeleteMarkFlag = 0) := by
  by_cases hs : retMsg.Status = Status.OpOk
  · by_cases hf : retMsg.Msg.Flag &&& d.DeleteMarkFlag = 0
    · have hr := replyInfo_live d.DeleteMarkFlag _ hf
      refine ⟨?_, ?_, ?_⟩
      · intro data _ _ henc
        simp [CreateLinkInode, Put, hval, hput, hs, hr, henc]
      · intro hn; exact absurd ⟨hs, hf⟩ hn
      · intro _ _ _; exact ⟨hs, hf⟩
    · have hr := replyInfo_marked d.DeleteMarkFlag zeroInfo _ hf
      refine ⟨?_, ?_, ?_⟩
      · intro data _ hf2; exact absurd hf2 hf
      · intro _; simp [CreateLinkInode, Put, hval, hput, hs, hr]
      · intro r hr2 hok
        simp [CreateLinkInode, Put, hval, hput, hs, hr] at hr2
        subst hr2
        simp [PacketErrorWithBody] at hok
  · refine ⟨?_, ?_, ?_⟩
    · intro data hs2; exact absurd hs2 hs
    · intro _; simp [CreateLinkInode, Put, hval, hput, hs]
    · intro r hr2 hok
      simp [CreateLinkInode, Put, hval, hput, hs] at hr2
      subst hr2
      simp [PacketErrorWithBody] at hok

/-- Witness for C5: a committed link of live record 5 is answered `Ok` with its
snapshot; a committed link whose result carries the delete-marked record 8 is
answered `NotExist`. -/
theorem CreateLinkInode_live_iff_witness :
    CreateLinkInode (exDeps (.ok (.ResponseInode ⟨Status.OpOk, exLive 5, 0⟩))) ⟨5⟩
        exPacket exPartition =
      some ⟨PacketErrorWithBody exPacket Status.OpOk (7 :: exInfoBytes (snapshot (exLive 5))),
        none, ⟨(8, 100), exPartition.inodeTree, [(Op.opFSMCreateLinkInode, [5, 0])]⟩⟩ ∧
    CreateLinkInode (exDeps (.ok (.ResponseInode ⟨Status.OpOk, exMarked 8, 0⟩))) ⟨8⟩
        exPacket exPartition =
      some ⟨PacketErrorWithBody exPacket Status.OpNotExistErr [],
        none, ⟨(8, 100), exPartition.inodeTree, [(Op.opFSMCreateLinkInode, [8, 0])]⟩⟩ :=
  ⟨(CreateLinkInode_live_iff (exDeps (.ok (.ResponseInode ⟨Status.OpOk, exLive 5, 0⟩))) ⟨5⟩
      exPacket exPartition [5, 0] ⟨Status.OpOk, exLive 5, 0⟩ ((8, 100), exPartition.inodeTree)
      rfl rfl).1 _ rfl (by decide) rfl,
   (CreateLinkInode_live_iff (exDeps (.ok (.ResponseInode ⟨Status.OpOk, exMarked 8, 0⟩))) ⟨8⟩
      exPacket exPartition [8, 0] ⟨Status.OpOk, exMarked 8, 0⟩ ((8, 100), exPartition.inodeTree)
      rfl rfl).2.1 (by decide)⟩

/-- Counterexample to C6. Record 8 is present in the store and delete-marked,
and `InodeGetAuth` still replies `Ok` with its lease token 42 and expiry 77. -/
theorem InodeGetAuth_marked_counterexample :
    exGetInode exPartition.inodeTree (exNewInode 8 0) = ⟨Status.OpOk, exMarked 8, 0⟩ ∧
    (exMarked 8).Flag &&& (exDeps exDown).DeleteMarkFlag > 0 ∧
    GetAuth (exMarked 8) = (42, 77) ∧
    InodeGetAuth (exDeps exDown) 8 exPacket exPartition =
      (PacketErrorWithBody exPacket Status.OpOk [8, 42, 77], none) := by
  decide

/-- Claim C6 as amended. `InodeGetAuth` does not look at the delete mark:
whenever the store lookup has status `Ok`, for a live record and for a
delete-marked one alike, the reply is `Ok` with the encoding of the record's
lease token and expiry; whenever the lookup has another status (`NotExist` for
an absent record) the reply carries that status and an empty body. -/
theorem InodeGetAuth_lookup_status {α τ : Type} (d : Deps α τ) (ino : Nat) (p : Packet)
    (mp : metaPartition α τ) :
    (∀ data : Bytes,
      (d.getInode mp.inodeTree (d.NewInode ino 0)).Status = Status.OpOk →
      d.jsonMarshal (.AuthMap (d.getInode mp.inodeTree (d.NewInode ino 0)).Msg.AuthID
        (d.getInode mp.inodeTree (d.NewInode ino 0)).Msg.AuthTimeout) = .ok data →
      InodeGetAuth d ino p mp = (PacketErrorWithBody p Status.OpOk data, none)) ∧
    ((d.getInode mp.inodeTree (d.NewInode ino 0)).Status ≠ Status.OpOk →
      InodeGetAuth d ino p mp =
        (PacketErrorWithBody p (d.getInode mp.inodeTree (d.NewInode ino 0)).Status [], none)) := by
  refine ⟨?_, ?_⟩
  · intro data hs henc
    simp [InodeGetAuth, GetAuth, hs, henc]
  · intro hs
    simp [InodeGetAuth, hs]

/-- Witness for the amended C6: the live record 5 and the delete-marked record
8 both answer `Ok` with token and expiry, the absent id 99 answers `NotExist`. -/
theorem InodeGetAuth_lookup_status_witness :
    InodeGetAuth (exDeps exDown) 5 exPacket exPartition =
      (PacketErrorWithBody exPacket Status.OpOk [8, 42, 77], none) ∧
    InodeGetAuth (exDeps exDown) 8 exPacket exPartition =
      (PacketErrorWithBody exPacket Status.OpOk [8, 42, 77], none) ∧
    InodeGetAuth (exDeps exDown) 99 exPacket exPartition =
      (PacketErrorWithBody exPacket Status.OpNotExistErr [], none) :=
  ⟨(InodeGetAuth_lookup_status (exDeps exDown) 5 exPacket exPartition).1 _ rfl rfl,
   (InodeGetAuth_lookup_status (exDeps exDown) 8 exPacket exPartition).1 _ rfl rfl,
   (InodeGetAuth_lookup_status (exDeps exDown) 99 exPacket exPartition).2 (by decide)⟩

/-- Claim C7. `Open` stamps the request with the clock value `now` it read,
whatever access time the request came with, and proposes the encoding `val` of
the stamped request. When that proposal commits with result `msg`, the reply
has the status of `msg` and its body is the encoding of the lease token of
`msg`. -/
theorem Open_reply_and_payload {α τ : Type} (d : Deps α τ) (now : Int) (req : OpenReq)
    (p : Packet) (mp : metaPartition α τ) (val reply : Bytes) (msg : ResponseInode)
    (st : α × τ)
    (hval : d.jsonMarshal (.OpenReq { req with ATime := now }) = .ok val)
    (hput : d.propose .opFSMOpen val (mp.config, mp.inodeTree) = (.ok (.ResponseInode msg), st))
    (hresp : d.jsonMarshal (.OpenResponse msg.AuthID) = .ok reply) :
    Open d now req p mp = some ⟨PacketErrorWithBody p msg.Status reply, none,
      ⟨st.1, st.2, mp.proposed ++ [(Op.opFSMOpen, val)]⟩⟩ ∧
    ∀ t : Int, Open d now { req with ATime := t } p mp = Open d now req p mp := by
  refine ⟨?_, fun t => rfl⟩
  simp [Open, Put, hval, hput, hresp]

/-- Witness for C7: a request for inode 5 that arrives with access time 17 is
proposed with the clock value 200, and the granted token 42 comes back with
the apply status. -/
theorem Open_reply_and_payload_witness :
    Open (exDeps (.ok (.ResponseInode ⟨Status.OpOk, exLive 5, 42⟩))) 200 ⟨5, 17⟩
        exPacket exPartition =
      some ⟨PacketErrorWithBody exPacket Status.OpOk [4, 42], none,
        ⟨(8, 100), exPartition.inodeTree, [(Op.opFSMOpen, [1, 5, 200])]⟩⟩ ∧
    ∀ t : Int, Open (exDeps (.ok (.ResponseInode ⟨Status.OpOk, exLive 5, 42⟩))) 200
        { (⟨5, 17⟩ : OpenReq) with ATime := t } exPacket exPartition =
      Open (exDeps (.ok (.ResponseInode ⟨Status.OpOk, exLive 5, 42⟩))) 200 ⟨5, 17⟩
        exPacket exPartition :=
  Open_reply_and_payload (exDeps (.ok (.ResponseInode ⟨Status.OpOk, exLive 5, 42⟩))) 200 ⟨5, 17⟩
    exPacket exPartition [1, 5, 200] [4, 42] ⟨Status.OpOk, exLive 5, 42⟩
    ((8, 100), exPartition.inodeTree) rfl rfl rfl

/-- Claim C8. In each of the seven mutating handlers, when the proposal to the
replicated log fails with `err`, the handler replies `OpAgain` with the text
of `err` as body and returns `err`; the partition is left in the state `st`
the failed proposal left it in, with that one proposal as the only command
submitted. -/
theorem proposal_error_is_retryable {α τ : Type} (d : Deps α τ) (p : Packet)
    (mp : metaPartition α τ) (err : GoError) (st : α × τ) :
    (∀ (req : CreateInoReq) (inoID : Nat) (cfg : α) (val : Bytes),
      d.nextInodeID mp.config = (.ok inoID, cfg) →
      d.Marshal { d.NewInode inoID req.Mode with LinkTarget := req.Target } = .ok val →
      d.propose .opFSMCreateInode val (cfg, mp.inodeTree) = (.error err, st) →
      CreateInode d req p mp = some ⟨PacketErrorWithBody p Status.OpAgain err.Error, some err,
        ⟨st.1, st.2, mp.proposed ++ [(Op.opFSMCreateInode, val)]⟩⟩) ∧
    (∀ (req : UnlinkInoReq) (val : Bytes),
      d.Marshal (d.NewInode req.Inode 0) = .ok val →
      d.propose .opFSMUnlinkInode val (mp.config, mp.inodeTree) = (.error err, st) →
      UnlinkInode d req p mp = some ⟨PacketErrorWithBody p Status.OpAgain err.Error, some err,
        ⟨st.1, st.2, mp.proposed ++ [(Op.opFSMUnlinkInode, val)]⟩⟩) ∧
    (∀ (now : Int) (req : OpenReq) (val : Bytes),
      d.jsonMarshal (.OpenReq { req with ATime := now }) = .ok val →
      d.propose .opFSMOpen val (mp.config, mp.inodeTree) = (.error err, st) →
      Open d now req p mp = some ⟨PacketErrorWithBody p Status.OpAgain err.Error, some err,
        ⟨st.1, st.2, mp.proposed ++ [(Op.opFSMOpen, val)]⟩⟩) ∧
    (∀ (req : ReleaseReq) (val : Bytes),
      d.Marshal { d.NewInode req.Inode 0 with AuthID := req.AuthID } = .ok val →
      d.propose .opFSMReleaseOpen val (mp.config, mp.inodeTree) = (.error err, st) →
      ReleaseOpen d req p mp = some ⟨PacketErrorWithBody p Status.OpAgain err.Error, some err,
        ⟨st.1, st.2, mp.proposed ++ [(Op.opFSMReleaseOpen, val)]⟩⟩) ∧
    (∀ (req : LinkInodeReq) (val : Bytes),
      d.Marshal (d.NewInode req.Inode 0) = .ok val →
      d.propose .opFSMCreateLinkInode val (mp.config, mp.inodeTree) = (.error err, st) →
      CreateLinkInode d req p mp = some ⟨PacketErrorWithBody p Status.OpAgain err.Error,
        some err, ⟨st.1, st.2, mp.proposed ++ [(Op.opFSMCreateLinkInode, val)]⟩⟩) ∧
    (∀ (req : EvictInodeReq) (val : Bytes),
      d.Marshal (d.NewInode req.Inode 0) = .ok val →
      d.propose .opFSMEvictInode val (mp.config, mp.inodeTree) = (.error err, st) →
      EvictInode d req p mp = some ⟨PacketErrorWithBody p Status.OpAgain err.Error, some err,
        ⟨st.1, st.2, mp.proposed ++ [(Op.opFSMEvictInode, val)]⟩⟩) ∧
    (∀ reqData : Bytes,
      d.propose .opFSMSetAttr reqData (mp.config, mp.inodeTree) = (.error err, st) →
      SetAttr d reqData p mp = ⟨PacketErrorWithBody p Status.OpAgain err.Error, some err,
        ⟨st.1, st.2, mp.proposed ++ [(Op.opFSMSetAttr, reqData)]⟩⟩) := by
  refine ⟨?_, ?_, ?_, ?_, ?_, ?_, ?_⟩
  · intro req inoID cfg val halloc hval hput
    simp [CreateInode, Put, halloc, hval, hput]
  · intro req val hval hput
    simp [UnlinkInode, Put, hval, hput]
  · intro now req val hval hput
    simp [Open, Put, hval, hput]
  · intro req val hval hput
    simp [ReleaseOpen, Put, hval, hput]
  · intro req val hval hput
    simp [CreateLinkInode, Put, hval, hput]
  · intro req val hval hput
    simp [EvictInode, Put, hval, hput]
  · intro reqData hput
    simp [SetAttr, Put, hput]

/-- Witness for C8: with a log that cannot commit, each of the seven handlers
answers `OpAgain` with the log's error text and leaves the store as it was. -/
theorem proposal_error_is_retryable_witness :
    CreateInode (exDeps exDown) ⟨420, [47]⟩ exPacket exPartition =
      some ⟨PacketErrorWithBody exPacket Status.OpAgain [110, 111], some ⟨[110, 111]⟩,
        ⟨(9, 100), exPartition.inodeTree, [(Op.opFSMCreateInode, [9, 0])]⟩⟩ ∧
    UnlinkInode (exDeps exDown) ⟨5⟩ exPacket exPartition =
      some ⟨PacketErrorWithBody exPacket Status.OpAgain [110, 111], some ⟨[110, 111]⟩,
        ⟨(8, 100), exPartition.inodeTree, [(Op.opFSMUnlinkInode, [5, 0])]⟩⟩ ∧
    Open (exDeps exDown) 200 ⟨5, 17⟩ exPacket exPartition =
      some ⟨PacketErrorWithBody exPacket Status.OpAgain [110, 111], some ⟨[110, 111]⟩,
        ⟨(8, 100), exPartition.inodeTree, [(Op.opFSMOpen, [1, 5, 200])]⟩⟩ ∧
    ReleaseOpen (exDeps exDown) ⟨5, 42⟩ exPacket exPartition =
      some ⟨PacketErrorWithBody exPacket Status.OpAgain [110, 111], some ⟨[110, 111]⟩,
        ⟨(8, 100), exPartition.inodeTree, [(Op.opFSMReleaseOpen, [5, 42])]⟩⟩ ∧
    CreateLinkInode (exDeps exDown) ⟨5⟩ exPacket exPartition =
      some ⟨PacketErrorWithBody exPacket Status.OpAgain [110, 111], some ⟨[110, 111]⟩,
        ⟨(8, 100), exPartition.inodeTree, [(Op.opFSMCreateLinkInode, [5, 0])]⟩⟩ ∧
    EvictInode (exDeps exDown) ⟨5⟩ exPacket exPartition =
      some ⟨PacketErrorWithBody exPacket Status.OpAgain [110, 111], some ⟨[110, 111]⟩,
        ⟨(8, 100), exPartition.inodeTree, [(Op.opFSMEvictInode, [5, 0])]⟩⟩ ∧
    SetAttr (exDeps exDown) [1, 2, 3] exPacket exPartition =
      ⟨PacketErrorWithBody exPacket Status.OpAgain [110, 111], some ⟨[110, 111]⟩,
        ⟨(8, 100), exPartition.inodeTree, [(Op.opFSMSetAttr, [1, 2, 3])]⟩⟩ :=
  ⟨(proposal_error_is_retryable (exDeps exDown) exPacket exPartition ⟨[110, 111]⟩
      ((9, 100), exPartition.inodeTree)).1 ⟨420, [47]⟩ 9 (9, 100) [9, 0] rfl rfl rfl,
   (proposal_error_is_retryable (exDeps exDown) exPacket exPartition ⟨[110, 111]⟩
      ((8, 100), exPartition.inodeTree)).2.1 ⟨5⟩ [5, 0] rfl rfl,
   (proposal_error_is_retryable (exDeps exDown) exPacket exPartition ⟨[110, 111]⟩
      ((8, 100), exPartition.inodeTree)).2.2.1 200 ⟨5, 17⟩ [1, 5, 200] rfl rfl,
   (proposal_error_is_retryable (exDeps exDown) exPacket exPartition ⟨[110, 111]⟩
      ((8, 100), exPartition.inodeTree)).2.2.2.1 ⟨5, 42⟩ [5, 42] rfl rfl,
   (proposal_error_is_retryable (exDeps exDown) exPacket exPartition ⟨[110, 111]⟩
      ((8, 100), exPartition.inodeTree)).2.2.2.2.1 ⟨5⟩ [5, 0] rfl rfl,
   (proposal_error_is_retryable (exDeps exDown) exPacket exPartition ⟨[110, 111]⟩
      ((8, 100), exPartition.inodeTree)).2.2.2.2.2.1 ⟨5⟩ [5, 0] rfl rfl,
   (proposal_error_is_retryable (exDeps exDown) exPacket exPartition ⟨[110, 111]⟩
      ((8, 100), exPartition.inodeTree)).2.2.2.2.2.2 [1, 2, 3] rfl⟩

end Metanode
